import Mathlib

/-!
Verification of the sensor-fusion and geometry core of the
"where-is-backyard-builder" compass component
(src/src/components/Compass.vue).

The component keeps module-level mutable state (`_lat`, `_lon`,
`compassAvailable`, `arrowRotation`, `distance`, and the
`deviceorientation` listener registration) and two handlers:
`updateDistance` (position path) and `updateOrientation` (heading path).

The embedding is split in two layers:

* an exact layer over `ℚ` for the control flow of the two handlers
  (heading-field selection, guards, the `[-180, 180]` wrap, the stored
  state).  The two transcendental quantities that the handlers compute
  inline — the forward bearing (Compass.vue lines 177-189) and the
  haversine distance (lines 92-104) — are passed as function parameters
  `bearing`/`dist` of the state machine, since their exact real-valued
  semantics is given separately by `bearingDeg` and `distanceKm` below;
* a real-valued layer for the great-circle geometry itself
  (`distanceKm`, `bearingDeg`, `atan2`), over `ℝ` with `Real.sin`,
  `Real.cos`, `Real.sqrt` and `Real.arctan` standing for the
  corresponding `Math` functions.
-/

namespace Backyard

open Real

/-- A `deviceorientation` sample as consumed by `updateOrientation`
(Compass.vue lines 140-162): the `absolute` flag, the generic `alpha`
field (`none` encodes both `null` and `undefined`), and the WebKit
`webkitCompassHeading` field (`none` encodes its absence). -/
structure OrientationEvent where
  absolute : Bool
  alpha : Option ℚ
  webkitCompassHeading : Option ℚ
deriving DecidableEq

/-- The heading value `_alpha` selected by `updateOrientation`
(Compass.vue lines 143-155).  `_alpha` starts `undefined`; the first
`if` assigns `webkitCompassHeading` when that field is truthy (present
and non-zero); the second, independent `if` then overwrites `_alpha`
with `alpha` whenever the sample is `absolute` with non-null `alpha`. -/
def selectAlpha (e : OrientationEvent) : Option ℚ :=
  let fromCompass : Option ℚ :=
    match e.webkitCompassHeading with
    | some w => if w = 0 then none else some w
    | none => none
  match e.absolute, e.alpha with
  | true, some a => some a
  | _, _ => fromCompass

/-- One conditional wrap in each direction, as applied to
`relativeBearing` (Compass.vue lines 197-198): subtract 360 if the
value exceeds 180, then add 360 if it is below -180. -/
def wrap180 {α : Type} [LinearOrderedField α] (r : α) : α :=
  let r1 := if r > 180 then r - 360 else r
  if r1 < -180 then r1 + 360 else r1

/-- Mathematical mod into `[0, m)` (floor convention), used to state
that the wrapped rotation still represents the same angle. -/
def qmod (x m : ℚ) : ℚ := x - m * ((⌊x / m⌋ : ℤ) : ℚ)

/-- The distance text `` `${dst.toFixed(0)} km` `` (Compass.vue
line 104).  `toFixed(0)` rounds to the nearest integer, ties toward
positive infinity, which is exactly `round`. -/
def fmtKm (d : ℚ) : String := toString (round d) ++ " km"

/-- The module-level mutable state of Compass.vue that the two sample
handlers read and write: `_lat`/`_lon` (lines 35-36), the `distance`
text (line 40), `compassAvailable` (line 110), `arrowRotation`
(line 111), and whether the `deviceorientation` listener is still
attached (`listening`). -/
structure CompassState where
  lat : Option ℚ
  lon : Option ℚ
  distance : String
  compassAvailable : Bool
  arrowRotation : ℚ
  listening : Bool
deriving DecidableEq

/-- The state right after the listeners are installed and before any
sensor callback ran: no position, empty distance text, arrow hidden
(`compassAvailable = false`) at rotation 0. -/
def initState : CompassState :=
  ⟨none, none, "", false, 0, true⟩

/-- `updateDistance` (Compass.vue lines 87-105): returns unchanged when
either coordinate is undefined, otherwise rewrites the distance text
from the current position.  `dist` abstracts the inline haversine value
`earthRadiusKm * c`, whose exact real semantics is `distanceKm`. -/
def updateDistance (dist : ℚ → ℚ → ℚ) (s : CompassState) : CompassState :=
  match s.lat, s.lon with
  | some la, some lo =>
      ⟨s.lat, s.lon, fmtKm (dist la lo), s.compassAvailable, s.arrowRotation, s.listening⟩
  | _, _ => s

/-- A geolocation callback (Compass.vue lines 59-62 and 67-70): store
the new coordinates, then run `updateDistance`. -/
def onPosition (dist : ℚ → ℚ → ℚ) (s : CompassState) (la lo : ℚ) : CompassState :=
  updateDistance dist
    ⟨some la, some lo, s.distance, s.compassAvailable, s.arrowRotation, s.listening⟩

/-- `updateOrientation` (Compass.vue lines 140-202).  With no usable
heading (`selectAlpha = none`): set `compassAvailable` to false and
remove the listener (lines 157-162).  With a heading but no position:
return with no change (lines 165-169).  Otherwise: set
`compassAvailable`, compute the bearing, subtract the heading, wrap
into `[-180, 180]` and store it in `arrowRotation` (lines 174-201).
`bearing` abstracts the inline `bearingFromNorth` computation, whose
exact real semantics is `bearingDeg`. -/
def updateOrientation (bearing : ℚ → ℚ → ℚ) (s : CompassState)
    (e : OrientationEvent) : CompassState :=
  match selectAlpha e with
  | none =>
      ⟨s.lat, s.lon, s.distance, false, s.arrowRotation, false⟩
  | some a =>
      match s.lat, s.lon with
      | some la, some lo =>
          ⟨s.lat, s.lon, s.distance, true, wrap180 (bearing la lo - a), s.listening⟩
      | _, _ => s

/-- Delivery of a `deviceorientation` event: the handler only runs
while the listener is attached. -/
def dispatch (bearing : ℚ → ℚ → ℚ) (s : CompassState)
    (e : OrientationEvent) : CompassState :=
  if s.listening then updateOrientation bearing s e else s

/-! ### Great-circle geometry over `ℝ`

Exact real-valued semantics of the inline geometry of `updateDistance`
(Compass.vue lines 92-104) and of the bearing computation in
`updateOrientation` (lines 177-189), with `Real.sin`/`Real.cos`/
`Real.sqrt`/`atan2` for the corresponding `Math` functions. -/


/-- Backyard Builder latitude (Compass.vue line 31). -/
noncomputable def bbLat : ℝ := 37.551447

/-- Backyard Builder longitude (Compass.vue line 32). -/
noncomputable def bbLon : ℝ := 127.047016

/-- `Math.atan2 y x`: the angle of the point `(x, y)`, in `(-π, π]`. -/
noncomputable def atan2 (y x : ℝ) : ℝ :=
  if 0 < x then arctan (y / x)
  else if x < 0 ∧ 0 ≤ y then arctan (y / x) + π
  else if x < 0 ∧ y < 0 then arctan (y / x) - π
  else if x = 0 ∧ 0 < y then π / 2
  else if x = 0 ∧ y < 0 then -(π / 2)
  else 0

/-- JS truncation toward zero, the rounding used by the `%` operator. -/
noncomputable def trunc (x : ℝ) : ℤ := if 0 ≤ x then ⌊x⌋ else ⌈x⌉

/-- The JS `%` remainder: `a - b * trunc (a / b)`. -/
noncomputable def jsMod (a b : ℝ) : ℝ := a - b * ((trunc (a / b) : ℤ) : ℝ)

/-- `toFixed(0)` as an integer: round to the nearest integer, ties
toward positive infinity (ECMA `ToFixed` picks the larger candidate). -/
noncomputable def toFixed0 (x : ℝ) : ℤ := round x

/-- The haversine distance of `updateDistance` (Compass.vue
lines 92-102), from observer `(lat1, lon1)` to target `(lat2, lon2)`
in degrees. -/
noncomputable def distanceKm (lat1 lon1 lat2 lon2 : ℝ) : ℝ :=
  let earthRadiusKm : ℝ := 6371
  let dLat := (lat2 - lat1) * π / 180
  let dLon := (lon2 - lon1) * π / 180
  let a := sin (dLat / 2) * sin (dLat / 2) +
    cos (lat1 * π / 180) * cos (lat2 * π / 180) *
      sin (dLon / 2) * sin (dLon / 2)
  let c := 2 * atan2 (Real.sqrt a) (Real.sqrt (1 - a))
  earthRadiusKm * c

/-- The forward-azimuth bearing of `updateOrientation` (Compass.vue
lines 177-189): `atan2` of the azimuth components, converted to
degrees, then normalized by `(x + 360) % 360`. -/
noncomputable def bearingDeg (lat1 lon1 lat2 lon2 : ℝ) : ℝ :=
  let lat1Rad := lat1 * π / 180
  let lat2Rad := lat2 * π / 180
  let deltaLonRad := (lon2 - lon1) * π / 180
  let y := sin deltaLonRad * cos lat2Rad
  let x := cos lat1Rad * sin lat2Rad - sin lat1Rad * cos lat2Rad * cos deltaLonRad
  jsMod (atan2 y x * 180 / π + 360) 360

/-- `⌊b / 360⌋ = 0` for `b ∈ [0, 360)`. -/
lemma floor_div_360_eq_zero {b : ℚ} (h1 : 0 ≤ b) (h2 : b < 360) :
    ⌊b / 360⌋ = 0 := by
  rw [Int.floor_eq_zero_iff, Set.mem_Ico]
  constructor
  · positivity
  · rw [div_lt_one (by norm_num)]
    linarith

/-- `qmod` ignores added whole turns on values in `[0, 360)`. -/
lemma qmod_shift (b : ℚ) (k : ℤ) (h1 : 0 ≤ b) (h2 : b < 360) :
    qmod (b + 360 * (k : ℚ)) 360 = b := by
  have hdiv : (b + 360 * (k : ℚ)) / 360 = b / 360 + (k : ℚ) := by ring
  have hf : ⌊(b + 360 * (k : ℚ)) / 360⌋ = k := by
    rw [hdiv, Int.floor_add_int, floor_div_360_eq_zero h1 h2, zero_add]
  rw [qmod, hf]
  ring

/-- C1 counterexample: a sample carrying a present, non-zero compass
heading (10) that is also marked absolute with non-null alpha (20) —
the handler uses the generic alpha, not the compass heading, because
the second `if` (Compass.vue line 152) overwrites `_alpha`
unconditionally whenever `absolute && alpha != null`. -/
theorem alpha_overrides_compass_cex :
    selectAlpha ⟨true, some 20, some 10⟩ = some 20 ∧
      selectAlpha ⟨true, some 20, some 10⟩ ≠ some 10 := by
  decide

/-- C1 (amended): the compass-heading field (present and non-zero)
determines the heading only when the sample is not absolute with
non-null alpha; whenever the sample is absolute with non-null alpha,
the generic alpha field is used, overriding any compass heading. -/
theorem selectAlpha_precedence :
    (∀ (ab : Bool) (al : Option ℚ) (w : ℚ), w ≠ 0 →
        ¬(ab = true ∧ al.isSome = true) →
        selectAlpha ⟨ab, al, some w⟩ = some w) ∧
    (∀ (a : ℚ) (wc : Option ℚ),
        selectAlpha ⟨true, some a, wc⟩ = some a) := by
  constructor
  · intro ab al w hw0 hna
    cases ab <;> cases al <;> simp_all [selectAlpha]
  · intro a wc
    simp [selectAlpha]

/-- C1 witness for the amended precedence statement. -/
theorem selectAlpha_precedence_w :
    selectAlpha ⟨false, none, some 10⟩ = some 10 ∧
      selectAlpha ⟨true, some 20, some 10⟩ = some 20 :=
  ⟨selectAlpha_precedence.1 false none 10 (by decide) (by decide),
   selectAlpha_precedence.2 20 (some 10)⟩

/-- C2: a compass-heading field equal to exactly 0 fails the truthiness
test `if (event.webkitCompassHeading)`, so the sample behaves exactly
as if the field were absent: the generic alpha is used when the sample
is absolute with non-null alpha, and otherwise no heading is selected
(the degraded path). -/
theorem compass_zero_falls_through (ab : Bool) (al : Option ℚ) :
    selectAlpha ⟨ab, al, some 0⟩ = selectAlpha ⟨ab, al, none⟩ ∧
      selectAlpha ⟨ab, al, some 0⟩ =
        (if ab = true ∧ al.isSome = true then al else none) := by
  cases ab <;> cases al <;> simp [selectAlpha]

/-- C3: for bearing `b ∈ [0, 360)` and heading `h ∈ [0, 360)`, the two
conditional wraps put `b - h` into `[-180, 180]`, and the result still
represents the bearing: adding the heading back gives `b` modulo 360. -/
theorem rotation_wrap_normalized (b h : ℚ) (hb0 : 0 ≤ b) (hb : b < 360)
    (hh0 : 0 ≤ h) (hh : h < 360) :
    -180 ≤ wrap180 (b - h) ∧ wrap180 (b - h) ≤ 180 ∧
      qmod (wrap180 (b - h) + h) 360 = b := by
  simp only [wrap180]
  by_cases h1 : b - h > 180
  · rw [if_pos h1, if_neg (by linarith)]
    refine ⟨by linarith, by linarith, ?_⟩
    have he : b - h - 360 + h = b + 360 * ((-1 : ℤ) : ℚ) := by push_cast; ring
    rw [he, qmod_shift b (-1) hb0 hb]
  · rw [if_neg h1]
    by_cases h2 : b - h < -180
    · rw [if_pos h2]
      refine ⟨by linarith, by linarith, ?_⟩
      have he : b - h + 360 + h = b + 360 * ((1 : ℤ) : ℚ) := by push_cast; ring
      rw [he, qmod_shift b 1 hb0 hb]
    · rw [if_neg h2]
      refine ⟨by linarith, by linarith, ?_⟩
      have he : b - h + h = b + 360 * ((0 : ℤ) : ℚ) := by norm_num
      rw [he, qmod_shift b 0 hb0 hb]

/-- C3 witness at `b = 350`, `h = 10`. -/
theorem rotation_wrap_normalized_w :
    -180 ≤ wrap180 ((350 : ℚ) - 10) ∧ wrap180 ((350 : ℚ) - 10) ≤ 180 ∧
      qmod (wrap180 ((350 : ℚ) - 10) + 10) 360 = 350 :=
  rotation_wrap_normalized 350 10 (by decide) (by decide) (by decide) (by decide)

/-- C4: a degraded sample (no usable heading) sets `compassAvailable`
to false, removes the listener, leaves position, distance and rotation
untouched, and after it no further orientation sample is ever
processed on this subscription. -/
theorem degraded_sample_terminal (bearing : ℚ → ℚ → ℚ) (s : CompassState)
    (e : OrientationEvent) (hdeg : selectAlpha e = none)
    (hl : s.listening = true) :
    (dispatch bearing s e).compassAvailable = false ∧
    (dispatch bearing s e).listening = false ∧
    (dispatch bearing s e).distance = s.distance ∧
    (dispatch bearing s e).lat = s.lat ∧
    (dispatch bearing s e).lon = s.lon ∧
    (dispatch bearing s e).arrowRotation = s.arrowRotation ∧
    ∀ es : List OrientationEvent,
      es.foldl (dispatch bearing) (dispatch bearing s e) =
        dispatch bearing s e := by
  have hstep : dispatch bearing s e =
      ⟨s.lat, s.lon, s.distance, false, s.arrowRotation, false⟩ := by
    simp [dispatch, hl, updateOrientation, hdeg]
  rw [hstep]
  refine ⟨rfl, rfl, rfl, rfl, rfl, rfl, ?_⟩
  intro es
  induction es with
  | nil => rfl
  | cons e2 t ih => simpa [dispatch] using ih

/-- C4 witness: a degraded sample delivered in the initial state, then
one further sample that is ignored. -/
theorem degraded_sample_terminal_w :
    (dispatch (fun _ _ => 0) initState ⟨false, none, none⟩).compassAvailable
        = false ∧
    (dispatch (fun _ _ => 0) initState
        ⟨false, none, none⟩).distance = initState.distance ∧
    [(⟨true, some 3, none⟩ : OrientationEvent)].foldl
        (dispatch (fun _ _ => 0))
        (dispatch (fun _ _ => 0) initState ⟨false, none, none⟩) =
      dispatch (fun _ _ => 0) initState ⟨false, none, none⟩ :=
  ⟨(degraded_sample_terminal (fun _ _ => 0) initState ⟨false, none, none⟩
      rfl rfl).1,
   (degraded_sample_terminal (fun _ _ => 0) initState ⟨false, none, none⟩
      rfl rfl).2.2.1,
   (degraded_sample_terminal (fun _ _ => 0) initState ⟨false, none, none⟩
      rfl rfl).2.2.2.2.2.2 [⟨true, some 3, none⟩]⟩

/-- C5: with no stored position, a valid heading sample changes nothing
(in particular `compassAvailable` stays false and the rotation is not
updated); after a position sample arrives, the same heading sample sets
`compassAvailable` to true and stores the wrapped relative bearing. -/
theorem heading_before_position (bearing dist : ℚ → ℚ → ℚ)
    (s : CompassState) (e : OrientationEvent) (a la lo : ℚ)
    (hlat : s.lat = none) (hlon : s.lon = none) (hl : s.listening = true)
    (ha : selectAlpha e = some a) :
    dispatch bearing s e = s ∧
    (dispatch bearing (onPosition dist s la lo) e).compassAvailable = true ∧
    (dispatch bearing (onPosition dist s la lo) e).arrowRotation =
      wrap180 (bearing la lo - a) := by
  have h1 : dispatch bearing s e = s := by
    simp [dispatch, hl, updateOrientation, ha, hlat, hlon]
  have h2 : onPosition dist s la lo =
      ⟨some la, some lo, fmtKm (dist la lo), s.compassAvailable,
        s.arrowRotation, s.listening⟩ := by
    simp [onPosition, updateDistance]
  refine ⟨h1, ?_, ?_⟩ <;> rw [h2] <;>
    simp [dispatch, hl, updateOrientation, ha]

/-- C5 witness: heading 30, then position (1, 2), then heading 30
again, with the abstract bearing returning 100. -/
theorem heading_before_position_w :
    dispatch (fun _ _ => 100) initState ⟨true, some 30, none⟩ = initState ∧
    (dispatch (fun _ _ => 100)
        (onPosition (fun _ _ => 5) initState 1 2)
        ⟨true, some 30, none⟩).compassAvailable = true ∧
    (dispatch (fun _ _ => 100)
        (onPosition (fun _ _ => 5) initState 1 2)
        ⟨true, some 30, none⟩).arrowRotation =
      wrap180 ((fun _ _ => (100 : ℚ)) 1 2 - 30) :=
  heading_before_position (fun _ _ => 100) (fun _ _ => 5) initState
    ⟨true, some 30, none⟩ 30 1 2 rfl rfl rfl rfl

/-- C9: a position sample stores the new coordinates and rewrites the
distance text, and changes nothing else: rotation, `compassAvailable`
and the listener registration keep their prior values. -/
theorem onPosition_only_position_and_distance (dist : ℚ → ℚ → ℚ)
    (s : CompassState) (la lo : ℚ) :
    (onPosition dist s la lo).arrowRotation = s.arrowRotation ∧
    (onPosition dist s la lo).compassAvailable = s.compassAvailable ∧
    (onPosition dist s la lo).listening = s.listening ∧
    (onPosition dist s la lo).lat = some la ∧
    (onPosition dist s la lo).lon = some lo ∧
    (onPosition dist s la lo).distance = fmtKm (dist la lo) := by
  simp [onPosition, updateDistance]

/-- C10: before any sensor callback, the visible state is exactly
`compassAvailable = false`, rotation 0 and an empty distance text; the
degraded guard changes only `compassAvailable` (and the listener
registration), and the no-position guard changes nothing at all. -/
theorem initial_state_and_guards (bearing : ℚ → ℚ → ℚ) :
    initState.compassAvailable = false ∧
    initState.arrowRotation = 0 ∧
    initState.distance = "" ∧
    (∀ (s : CompassState) (e : OrientationEvent), selectAlpha e = none →
        (updateOrientation bearing s e).lat = s.lat ∧
        (updateOrientation bearing s e).lon = s.lon ∧
        (updateOrientation bearing s e).distance = s.distance ∧
        (updateOrientation bearing s e).arrowRotation = s.arrowRotation) ∧
    (∀ (s : CompassState) (e : OrientationEvent) (a : ℚ),
        selectAlpha e = some a → (s.lat = none ∨ s.lon = none) →
        updateOrientation bearing s e = s) := by
  refine ⟨rfl, rfl, rfl, ?_, ?_⟩
  · intro s e hdeg
    simp [updateOrientation, hdeg]
  · intro s e a ha hnone
    rcases hnone with hn | hn
    · simp [updateOrientation, ha, hn]
    · cases hs : s.lat <;> simp [updateOrientation, ha, hn, hs]


/-- C10 witness: the initial-state facts plus both guard paths at
concrete inputs. -/
theorem initial_state_and_guards_w :
    initState.compassAvailable = false ∧
    (updateOrientation (fun _ _ => 0) initState ⟨false, none, none⟩).distance
        = initState.distance ∧
    updateOrientation (fun _ _ => 0) initState ⟨true, some 5, none⟩
        = initState :=
  ⟨(initial_state_and_guards (fun _ _ => 0)).1,
   ((initial_state_and_guards (fun _ _ => 0)).2.2.2.1 initState
      ⟨false, none, none⟩ rfl).2.2.1,
   (initial_state_and_guards (fun _ _ => 0)).2.2.2.2 initState
      ⟨true, some 5, none⟩ 5 rfl (Or.inl rfl)⟩

/-- `arctan` is nonnegative on nonnegative inputs. -/
lemma arctan_nonneg_of_nonneg (t : ℝ) (ht : 0 ≤ t) : 0 ≤ arctan t := by
  have h := Real.arctan_strictMono.monotone ht
  rwa [Real.arctan_zero] at h

/-- `atan2 y x` is in `(-π, π]`. -/
lemma atan2_mem (y x : ℝ) : -π < atan2 y x ∧ atan2 y x ≤ π := by
  have hpi := Real.pi_pos
  rw [atan2]
  split_ifs with h1 h2 h3 h4 h5
  · obtain ⟨hl, hr⟩ := Set.mem_Ioo.1 (Real.arctan_mem_Ioo (y / x))
    constructor <;> linarith
  · obtain ⟨hl, hr⟩ := Set.mem_Ioo.1 (Real.arctan_mem_Ioo (y / x))
    have hylt : arctan (y / x) ≤ 0 := by
      have hyx : y / x ≤ 0 := by
        rcases h2 with ⟨hx, hy⟩
        exact div_nonpos_iff.2 (Or.inl ⟨hy, hx.le⟩)
      have := Real.arctan_strictMono.monotone hyx
      rwa [Real.arctan_zero] at this
    constructor <;> linarith
  · obtain ⟨hl, hr⟩ := Set.mem_Ioo.1 (Real.arctan_mem_Ioo (y / x))
    have hygt : 0 < arctan (y / x) := by
      rcases h3 with ⟨hx, hy⟩
      have hyx : 0 < y / x := div_pos_iff.2 (Or.inr ⟨hy, hx⟩)
      have := Real.arctan_strictMono hyx
      rwa [Real.arctan_zero] at this
    constructor <;> linarith
  · constructor <;> linarith
  · constructor <;> linarith
  · constructor <;> linarith

/-- `atan2 y x` is nonnegative when `y` is. -/
lemma atan2_nonneg (y x : ℝ) (hy : 0 ≤ y) : 0 ≤ atan2 y x := by
  have hpi := Real.pi_pos
  rw [atan2]
  split_ifs with h1 h2 h3 h4 h5
  · exact arctan_nonneg_of_nonneg _ (div_nonneg hy h1.le)
  · obtain ⟨hl, hr⟩ := Set.mem_Ioo.1 (Real.arctan_mem_Ioo (y / x))
    linarith
  · exact absurd h3.2 (not_lt.2 hy)
  · linarith
  · exact absurd h5.2 (not_lt.2 hy)
  · exact le_refl 0

/-- C7: the haversine distance is 0 from a point to itself, symmetric
in the two points, and always nonnegative. -/
theorem distanceKm_self_symm_nonneg (lat1 lon1 lat2 lon2 : ℝ) :
    distanceKm lat1 lon1 lat1 lon1 = 0 ∧
    distanceKm lat1 lon1 lat2 lon2 = distanceKm lat2 lon2 lat1 lon1 ∧
    0 ≤ distanceKm lat1 lon1 lat2 lon2 := by
  refine ⟨?_, ?_, ?_⟩
  · norm_num [distanceKm, atan2, Real.arctan_zero]
  · simp only [distanceKm]
    have h1 : (lat1 - lat2) * π / 180 / 2 = -((lat2 - lat1) * π / 180 / 2) := by
      ring
    have h2 : (lon1 - lon2) * π / 180 / 2 = -((lon2 - lon1) * π / 180 / 2) := by
      ring
    have ha :
        sin ((lat2 - lat1) * π / 180 / 2) * sin ((lat2 - lat1) * π / 180 / 2) +
          cos (lat1 * π / 180) * cos (lat2 * π / 180) *
            sin ((lon2 - lon1) * π / 180 / 2) * sin ((lon2 - lon1) * π / 180 / 2) =
        sin ((lat1 - lat2) * π / 180 / 2) * sin ((lat1 - lat2) * π / 180 / 2) +
          cos (lat2 * π / 180) * cos (lat1 * π / 180) *
            sin ((lon1 - lon2) * π / 180 / 2) * sin ((lon1 - lon2) * π / 180 / 2) := by
      rw [h1, h2, Real.sin_neg, Real.sin_neg]
      ring
    rw [ha]
  · simp only [distanceKm]
    exact mul_nonneg (by norm_num)
      (mul_nonneg (by norm_num) (atan2_nonneg _ _ (Real.sqrt_nonneg _)))

/-- Two-sided bracket for `sin` on `(0, 1]`, from `sin x < x` and
`x - x ^ 3 / 4 < sin x`. -/
lemma sin_bracket (x lo hi : ℝ) (h0 : 0 < lo) (hl : lo ≤ x) (hu : x ≤ hi)
    (h1 : hi ≤ 1) : lo - lo ^ 3 / 4 ≤ sin x ∧ sin x ≤ hi := by
  have hpi := Real.pi_gt_three
  constructor
  · have hm : sin lo ≤ sin x :=
      Real.sin_le_sin_of_le_of_le_pi_div_two (by linarith) (by linarith) hl
    have hc := Real.sin_gt_sub_cube h0 (le_trans (hl.trans hu) h1)
    linarith
  · have := Real.sin_lt (lt_of_lt_of_le h0 hl)
    linarith

/-- The half-angle form of the cosine double-angle identity. -/
lemma cos_eq_one_sub_two_sin_sq_half (x : ℝ) :
    cos x = 1 - 2 * sin (x / 2) ^ 2 := by
  have h := Real.sin_sq_eq_half_sub (x / 2)
  rw [show 2 * (x / 2) = x by ring] at h
  linarith

/-- Two-sided bracket for `cos` on `(0, 1]`, via the half-angle
identity and `sin_bracket`. -/
lemma cos_bracket (x lo hi : ℝ) (h0 : 0 < lo) (hl : lo ≤ x) (hu : x ≤ hi)
    (h1 : hi ≤ 1) :
    1 - 2 * (hi / 2) ^ 2 ≤ cos x ∧
      cos x ≤ 1 - 2 * (lo / 2 - (lo / 2) ^ 3 / 4) ^ 2 := by
  obtain ⟨hsl, hsu⟩ := sin_bracket (x / 2) (lo / 2) (hi / 2) (by linarith)
    (by linarith) (by linarith) (by linarith)
  have hlo1 : lo ≤ 1 := le_trans (hl.trans hu) h1
  have hll : lo * lo ≤ 1 := by nlinarith
  have hA0 : 0 ≤ lo / 2 - (lo / 2) ^ 3 / 4 := by nlinarith [hll, h0.le]
  rw [cos_eq_one_sub_two_sin_sq_half]
  constructor <;> nlinarith

/-- `arctan t ≤ t` for nonnegative `t`. -/
lemma arctan_le_self_of_nonneg (t : ℝ) (ht : 0 ≤ t) : arctan t ≤ t := by
  rcases eq_or_lt_of_le ht with h | h
  · rw [← h, Real.arctan_zero]
  · have h1 : 0 < arctan t := by
      have := Real.arctan_strictMono h
      rwa [Real.arctan_zero] at this
    have h3 := Real.lt_tan h1 (Real.arctan_lt_pi_div_two t)
    rw [Real.tan_arctan] at h3
    exact h3.le

/-- `t / √(1 + t ^ 2) ≤ arctan t` for nonnegative `t`, since the left
side is `sin (arctan t)`. -/
lemma div_sqrt_le_arctan (t : ℝ) (ht : 0 ≤ t) :
    t / Real.sqrt (1 + t ^ 2) ≤ arctan t := by
  have h0 := arctan_nonneg_of_nonneg t ht
  have hs : sin (arctan t) ≤ arctan t := by
    rcases eq_or_lt_of_le h0 with h | h
    · rw [← h, Real.sin_zero]
    · exact (Real.sin_lt h).le
  rwa [Real.sin_arctan] at hs

/-- Bracket for the haversine value `6371 * c` from brackets on the
four trigonometric factors at the anchor input. -/
lemma distance_core_bounds (s1 s2 c1 c2 : ℝ)
    (hs1l : 0.000448958 ≤ s1) (hs1u : s1 ≤ 0.000448961)
    (hs2l : 0.00041029 ≤ s2) (hs2u : s2 ≤ 0.000410293)
    (hc1l : 0.78581 ≤ c1) (hc1u : c1 ≤ 0.79714)
    (hc2l : 0.78522 ≤ c2) (hc2u : c2 ≤ 0.79665) :
    6.5 ≤ 6371 * (2 * atan2 (Real.sqrt (s1 * s1 + c1 * c2 * s2 * s2))
        (Real.sqrt (1 - (s1 * s1 + c1 * c2 * s2 * s2)))) ∧
      6371 * (2 * atan2 (Real.sqrt (s1 * s1 + c1 * c2 * s2 * s2))
        (Real.sqrt (1 - (s1 * s1 + c1 * c2 * s2 * s2)))) < 7.5 := by
  have hs10 : (0 : ℝ) ≤ s1 := by linarith
  have hs20 : (0 : ℝ) ≤ s2 := by linarith
  have hc10 : (0 : ℝ) ≤ c1 := by linarith
  have hc20 : (0 : ℝ) ≤ c2 := by linarith
  have hbr : (3.05e-7 : ℝ) ≤ s1 * s1 + c1 * c2 * s2 * s2 ∧
      s1 * s1 + c1 * c2 * s2 * s2 ≤ (3.09e-7 : ℝ) := by
    have hq11 : (0.000448958 : ℝ) * 0.000448958 ≤ s1 * s1 :=
      mul_le_mul hs1l hs1l (by norm_num) hs10
    have hq12 : s1 * s1 ≤ 0.000448961 * 0.000448961 :=
      mul_le_mul hs1u hs1u hs10 (by norm_num)
    have hcc1 : (0.78581 : ℝ) * 0.78522 ≤ c1 * c2 :=
      mul_le_mul hc1l hc2l (by norm_num) hc10
    have hcc2 : c1 * c2 ≤ 0.79714 * 0.79665 :=
      mul_le_mul hc1u hc2u hc20 (by norm_num)
    have hp1 : (0.78581 : ℝ) * 0.78522 * 0.00041029 ≤ c1 * c2 * s2 :=
      mul_le_mul hcc1 hs2l (by norm_num) (mul_nonneg hc10 hc20)
    have hp2 : c1 * c2 * s2 ≤ 0.79714 * 0.79665 * 0.000410293 :=
      mul_le_mul hcc2 hs2u hs20 (by norm_num)
    have hp3 : (0.78581 : ℝ) * 0.78522 * 0.00041029 * 0.00041029 ≤
        c1 * c2 * s2 * s2 :=
      mul_le_mul hp1 hs2l (by norm_num) (mul_nonneg (mul_nonneg hc10 hc20) hs20)
    have hp4 : c1 * c2 * s2 * s2 ≤ 0.79714 * 0.79665 * 0.000410293 * 0.000410293 :=
      mul_le_mul hp2 hs2u hs20 (by norm_num)
    constructor
    · linarith [hq11, hp3]
    · linarith [hq12, hp4]
  clear hs1l hs1u hs2l hs2u hc1l hc1u hc2l hc2u hs10 hs20 hc10 hc20
  generalize hadef : s1 * s1 + c1 * c2 * s2 * s2 = a at hbr ⊢
  clear hadef s1 s2 c1 c2
  obtain ⟨hal, hau⟩ := hbr
  have ha0 : (0 : ℝ) ≤ a := by linarith
  have ha1 : (0 : ℝ) ≤ 1 - a := by linarith
  have hs_lo : (0.000552 : ℝ) ≤ Real.sqrt a := by
    rw [show (0.000552 : ℝ) = Real.sqrt (0.000552 ^ 2) from
      (Real.sqrt_sq (by norm_num)).symm]
    exact Real.sqrt_le_sqrt (by nlinarith)
  have hs_hi : Real.sqrt a ≤ 0.000556 := by
    rw [show (0.000556 : ℝ) = Real.sqrt (0.000556 ^ 2) from
      (Real.sqrt_sq (by norm_num)).symm]
    exact Real.sqrt_le_sqrt (by nlinarith)
  have h1a_lo : (0.9999 : ℝ) ≤ Real.sqrt (1 - a) := by
    rw [show (0.9999 : ℝ) = Real.sqrt (0.9999 ^ 2) from
      (Real.sqrt_sq (by norm_num)).symm]
    exact Real.sqrt_le_sqrt (by nlinarith)
  have h1a_hi : Real.sqrt (1 - a) ≤ 1 := by
    nlinarith [Real.sq_sqrt ha1, Real.sqrt_nonneg (1 - a)]
  have h1a_pos : (0 : ℝ) < Real.sqrt (1 - a) := by linarith
  have hatan : atan2 (Real.sqrt a) (Real.sqrt (1 - a)) =
      arctan (Real.sqrt a / Real.sqrt (1 - a)) := by
    rw [atan2, if_pos h1a_pos]
  rw [hatan]
  set t := Real.sqrt a / Real.sqrt (1 - a) with htdef
  have ht0 : (0 : ℝ) ≤ t := by
    rw [htdef]
    positivity
  have htl : (0.000552 : ℝ) ≤ t := by
    rw [htdef, le_div_iff₀ h1a_pos]
    linarith [h1a_hi, hs_lo]
  have htu : t ≤ 0.000556 / 0.9999 := by
    rw [htdef, div_le_div_iff₀ h1a_pos (by norm_num)]
    linarith [hs_hi, h1a_lo]
  have hau2 : arctan t ≤ t := arctan_le_self_of_nonneg t ht0
  have hmono : arctan 0.000552 ≤ arctan t := Real.arctan_strictMono.monotone htl
  have hsin : (0.000552 : ℝ) / Real.sqrt (1 + 0.000552 ^ 2) ≤ arctan 0.000552 :=
    div_sqrt_le_arctan 0.000552 (by norm_num)
  have hsq : Real.sqrt (1 + (0.000552 : ℝ) ^ 2) ≤ 1.001 := by
    nlinarith [Real.sq_sqrt (show (0 : ℝ) ≤ 1 + (0.000552 : ℝ) ^ 2 by norm_num),
      Real.sqrt_nonneg (1 + (0.000552 : ℝ) ^ 2)]
  have hsq0 : (0 : ℝ) < Real.sqrt (1 + (0.000552 : ℝ) ^ 2) := by
    have hx : (0 : ℝ) < 1 + (0.000552 : ℝ) ^ 2 := by norm_num
    exact Real.sqrt_pos.2 hx
  have hlow : (0.000551 : ℝ) ≤ 0.000552 / Real.sqrt (1 + 0.000552 ^ 2) := by
    rw [le_div_iff₀ hsq0]
    nlinarith [hsq]
  have harctan_l : (0.000551 : ℝ) ≤ arctan t := by linarith
  have harctan_u : arctan t ≤ 0.000556 / 0.9999 := by linarith
  constructor
  · linarith [harctan_l]
  · linarith [harctan_u]

set_option maxHeartbeats 1000000 in
/-- Bracket for the anchor distance: observer `(37.5, 127.0)`, target
`(bbLat, bbLon)`.  The value is about 7.065 km; the bracket `[6.5, 7.5)`
is what the `toFixed(0)` rounding needs. -/
lemma anchor_distance_bounds :
    6.5 ≤ distanceKm 37.5 127.0 bbLat bbLon ∧
      distanceKm 37.5 127.0 bbLat bbLon < 7.5 := by
  have hπl : (3.141592 : ℝ) < π := Real.pi_gt_d6
  have hπu : π < 3.141593 := Real.pi_lt_d6
  simp only [distanceKm, bbLat, bbLon]
  have hu1l : (0.000448959 : ℝ) ≤ ((37.551447 : ℝ) - 37.5) * π / 180 / 2 := by
    linarith
  have hu1u : ((37.551447 : ℝ) - 37.5) * π / 180 / 2 ≤ 0.000448961 := by
    linarith
  have hu2l : (0.000410291 : ℝ) ≤ ((127.047016 : ℝ) - 127.0) * π / 180 / 2 := by
    linarith
  have hu2u : ((127.047016 : ℝ) - 127.0) * π / 180 / 2 ≤ 0.000410293 := by
    linarith
  have hv1l : (0.6544982 : ℝ) ≤ (37.5 : ℝ) * π / 180 := by linarith
  have hv1u : (37.5 : ℝ) * π / 180 ≤ 0.6544987 := by linarith
  have hv2l : (0.6553961 : ℝ) ≤ (37.551447 : ℝ) * π / 180 := by linarith
  have hv2u : (37.551447 : ℝ) * π / 180 ≤ 0.6553966 := by linarith
  obtain ⟨hs1a, hs1b⟩ := sin_bracket (((37.551447 : ℝ) - 37.5) * π / 180 / 2)
    0.000448959 0.000448961 (by norm_num) hu1l hu1u (by norm_num)
  obtain ⟨hs2a, hs2b⟩ := sin_bracket (((127.047016 : ℝ) - 127.0) * π / 180 / 2)
    0.000410291 0.000410293 (by norm_num) hu2l hu2u (by norm_num)
  obtain ⟨hc1a, hc1b⟩ := cos_bracket ((37.5 : ℝ) * π / 180)
    0.6544982 0.6544987 (by norm_num) hv1l hv1u (by norm_num)
  obtain ⟨hc2a, hc2b⟩ := cos_bracket ((37.551447 : ℝ) * π / 180)
    0.6553961 0.6553966 (by norm_num) hv2l hv2u (by norm_num)
  have e1 : (0.000448958 : ℝ) ≤ 0.000448959 - 0.000448959 ^ 3 / 4 := by
    norm_num
  have e2 : (0.00041029 : ℝ) ≤ 0.000410291 - 0.000410291 ^ 3 / 4 := by
    norm_num
  have e3 : (0.78581 : ℝ) ≤ 1 - 2 * (0.6544987 / 2) ^ 2 := by norm_num
  have e4 : (1 : ℝ) - 2 * (0.6544982 / 2 - (0.6544982 / 2) ^ 3 / 4) ^ 2
      ≤ 0.79714 := by norm_num
  have e5 : (0.78522 : ℝ) ≤ 1 - 2 * (0.6553966 / 2) ^ 2 := by norm_num
  have e6 : (1 : ℝ) - 2 * (0.6553961 / 2 - (0.6553961 / 2) ^ 3 / 4) ^ 2
      ≤ 0.79665 := by norm_num
  exact distance_core_bounds _ _ _ _
    (by linarith) (by linarith) (by linarith) (by linarith)
    (by linarith) (by linarith) (by linarith) (by linarith)

/-- C6: for observer `(37.5, 127.0)` and the fixed Backyard Builder
target, the haversine distance with Earth radius 6371 km displays as
7 km under `toFixed(0)`. -/
theorem anchor_distance_rounds_to_7 :
    toFixed0 (distanceKm 37.5 127.0 bbLat bbLon) = 7 := by
  obtain ⟨h1, h2⟩ := anchor_distance_bounds
  rw [toFixed0, round_eq, Int.floor_eq_iff]
  constructor
  · push_cast
    linarith
  · push_cast
    linarith

/-- `trunc` agrees with the floor on nonnegative inputs. -/
lemma trunc_eq_floor (x : ℝ) (hx : 0 ≤ x) : trunc x = ⌊x⌋ := if_pos hx

/-- The JS remainder by 360 of a nonnegative value lies in `[0, 360)`. -/
lemma jsMod_360_mem (t : ℝ) (ht : 0 ≤ t) :
    0 ≤ jsMod t 360 ∧ jsMod t 360 < 360 := by
  have hq : (0 : ℝ) ≤ t / 360 := by positivity
  rw [jsMod, trunc_eq_floor _ hq]
  have h1 : ((⌊t / 360⌋ : ℤ) : ℝ) ≤ t / 360 := Int.floor_le _
  have h2 : t / 360 < (⌊t / 360⌋ : ℤ) + 1 := Int.lt_floor_add_one _
  constructor <;> nlinarith

/-- C8: the bearing — `atan2` converted to degrees and normalized by
`(x + 360) % 360` — always lands in `[0, 360)`. -/
theorem bearingDeg_mem_Ico (lat1 lon1 lat2 lon2 : ℝ) :
    0 ≤ bearingDeg lat1 lon1 lat2 lon2 ∧ bearingDeg lat1 lon1 lat2 lon2 < 360 := by
  simp only [bearingDeg]
  apply jsMod_360_mem
  obtain ⟨hl, hr⟩ := atan2_mem (sin ((lon2 - lon1) * π / 180) * cos (lat2 * π / 180))
    (cos (lat1 * π / 180) * sin (lat2 * π / 180) -
      sin (lat1 * π / 180) * cos (lat2 * π / 180) * cos ((lon2 - lon1) * π / 180))
  have hpi := Real.pi_pos
  have h180 : (0 : ℝ) < 180 / π := by positivity
  have hineq := mul_lt_mul_of_pos_right hl h180
  have hval : -π * (180 / π) = -180 := by
    field_simp
    ring
  have hform : ∀ z : ℝ, z * 180 / π = z * (180 / π) := fun z => by ring
  rw [hform]
  linarith [hineq, hval]

end Backyard
